import Mathlib

/-!
Shallow embedding of the track-reconciliation engine of
`plex-playlist-sync/utils/plex.py`, together with theorems settling the
frozen claims about it.

Modelling conventions:
* A Plex connection handle (`PlexServer` object) is a natural number; a
  reconnection (`createPlexServer`, which blocks and retries until it
  succeeds) yields a fresh handle.
* The remote search index is an oracle `env : Nat → Query → SearchOutcome`
  giving, for each handle and query, whether `handle.search(query)` returns
  results, raises `BadRequest`, or raises a connectivity exception.
* A search-result candidate (`CatalogTrack`) carries the outcomes of reading
  `candidate.artist().title` and `candidate.album().title`, each of which may
  raise.  Iterating over a single plexapi object yields the object itself
  once, so `plex_tracks.extend(s)` appends exactly one entry.
* Floats are modelled as rationals; `SequenceMatcher.quick_ratio` over two
  strings equals `2 * (sum over characters of the minimum multiplicity in the
  two strings) / (total length)`, and `1` when both strings are empty.
* The remote playlist store and the missing-tracks CSV directory are
  association lists keyed by name; remote calls append to an effect trace.
-/

namespace PlexSync

/-- Exception kinds distinguishable by the code's handlers. -/
inductive Exc where
  | indexError
  | badRequest
  | notFound
  | otherError
deriving DecidableEq, Repr

/-- Outcome of reading one metadata field of a search-result candidate. -/
inductive MetaResult where
  | ok (s : String)
  | err (e : Exc)
deriving DecidableEq, Repr

/-- A search-result candidate (plexapi track object): reading its artist or
album name can fail. -/
structure PTrack where
  artistName : MetaResult
  albumName : MetaResult
deriving DecidableEq, Repr

/-- A source track descriptor (`helperClasses.Track`): fields as used by
`plex.py` (title, artist, album, url). -/
structure Track where
  title : String
  artist : String
  album : String
  url : String
deriving DecidableEq, Repr

/-- A source playlist descriptor (`helperClasses.Playlist`) as used by
`plex.py`: name, optional description, optional poster URL. -/
structure Playlist where
  name : String
  description : Option String
  poster : Option String
deriving DecidableEq, Repr

/-- The user configuration flags consumed by `plex.py`. -/
structure UserInputs where
  append_instead_of_sync : Bool
  write_missing_as_csv : Bool
  add_playlist_description : Bool
  add_playlist_poster : Bool
deriving DecidableEq, Repr

/-- One search request: `plexServer.search(searchString, mediatype, limit)`. -/
structure Query where
  searchString : String
  mediatype : String
  limit : Nat
deriving DecidableEq, Repr

/-- What `handle.search(query)` does: return results, raise BadRequest, or
raise some other (connectivity) exception. -/
inductive SearchOutcome where
  | ok (results : List PTrack)
  | badRequest
  | connError
deriving DecidableEq, Repr

/-- `createPlexServer`: blocks, retrying every 5 seconds, until a new server
object is obtained; it never fails.  Modelled as producing the next fresh
handle. -/
def createPlexServer (h : Nat) : Nat := h + 1

/-- `saveSearch`: try the search; on `BadRequest` return the unchanged handle
and `None`; on any other exception reconnect and retry the same query.  The
recursion is unbounded in Python, so it is given fuel here; `none` means the
fuel ran out (the code would still be retrying). -/
def saveSearch (env : Nat → Query → SearchOutcome) :
    Nat → Nat → Query → Option (Nat × Option (List PTrack))
  | 0, _, _ => none
  | fuel + 1, h, q =>
    match env h q with
    | .ok rs => some (h, some rs)
    | .badRequest => some (h, none)
    | .connError => saveSearch env fuel (createPlexServer h) q

/-- Python's `str.lower()`, character by character.  (Restricted to the
ASCII case mapping of `Char.toLower`; the claims quantify over arbitrary
strings, so the exact case table is not load-bearing.) -/
def lowerStr (s : String) : String := ⟨s.data.map Char.toLower⟩

/-- Number of matching characters of difflib's `quick_ratio`: the sum over
characters of the minimum of the two multiplicities. -/
def charMatches (a b : List Char) : Nat :=
  (a.dedup.map (fun c => min (a.count c) (b.count c))).sum

/-- `SequenceMatcher(None, a, b).quick_ratio()`: `2 * M / (len a + len b)`
with `M = charMatches`, and `1.0` when both strings are empty. -/
def similarity (a b : String) : ℚ :=
  if a.length + b.length = 0 then 1
  else (2 * charMatches a.data b.data : ℚ) / ((a.length + b.length : Nat) : ℚ)

/-- The comparison `0.9 <= quick_ratio(a, b)` with denominators cleared
(`9 * (len a + len b) ≤ 20 * M`; when both strings are empty the ratio is `1`
and the comparison also holds).  Kept in `Nat` so that concrete runs of the
engine evaluate inside the kernel; `atLeastPoint9_iff` proves it equal to the
rational comparison. -/
def atLeastPoint9 (a b : String) : Bool :=
  9 * (a.length + b.length) ≤ 20 * charMatches a.data b.data

instance {e a : Type} [DecidableEq e] [DecidableEq a] :
    DecidableEq (Except e a) := fun x y =>
  match x, y with
  | .error u, .error v =>
    if h : u = v then isTrue (by rw [h])
    else isFalse (fun hc => h (Except.error.inj hc))
  | .error _, .ok _ => isFalse (fun hc => Except.noConfusion hc)
  | .ok _, .error _ => isFalse (fun hc => Except.noConfusion hc)
  | .ok u, .ok v =>
    if h : u = v then isTrue (by rw [h])
    else isFalse (fun hc => h (Except.ok.inj hc))

/-- Result of running the body of the candidate loop on one candidate. -/
inductive CandResult where
  | accepted
  | rejected
  | skipped
  | aborted (e : Exc)
deriving DecidableEq, Repr

/-- Body of the candidate loop of `_get_available_plex_tracks`: read the
artist name and compare (accept at quick_ratio ≥ 0.9); otherwise read the
album name and compare (accept at ≥ 0.9); otherwise reject.  An `IndexError`
anywhere in the body is caught and the candidate is skipped; any other
exception propagates. -/
def evalCandidate (t : Track) (s : PTrack) : CandResult :=
  match s.artistName with
  | .err .indexError => .skipped
  | .err e => .aborted e
  | .ok a =>
    if atLeastPoint9 (lowerStr a) (lowerStr t.artist) then .accepted
    else
      match s.albumName with
      | .err .indexError => .skipped
      | .err e => .aborted e
      | .ok b =>
        if atLeastPoint9 (lowerStr b) (lowerStr t.album) then .accepted
        else .rejected

/-- The candidate loop: first accepted candidate wins; skipped and rejected
candidates are passed over; an uncaught exception aborts the whole
resolution. -/
def findMatch (t : Track) : List PTrack → Except Exc (Option PTrack)
  | [] => .ok none
  | s :: rest =>
    match evalCandidate t s with
    | .accepted => .ok (some s)
    | .rejected => findMatch t rest
    | .skipped => findMatch t rest
    | .aborted e => .error e

/-- `len(title.split "(") > 1`, i.e. the title contains a `(`. -/
def hasParen (t : String) : Bool := t.data.contains '('

/-- `title.split("(")[0]`: the substring before the first `(` (the whole
string when there is none). -/
def beforeParen (t : String) : String := ⟨t.data.takeWhile (fun c => c ≠ '(')⟩

/-- Resolution of one track inside `_get_available_plex_tracks`: search for
the full title; if that search did not return `None` and (it returned no
results or the title contains a `(`), search again for the prefix before the
first `(` and, when the second search did not return `None`, append its
results; then scan the candidates.  Returns the threaded handle, the list of
queries issued, and the outcome (`.error` when an uncaught exception escapes
the candidate loop). -/
def processTrack (env : Nat → Query → SearchOutcome) (fuel h : Nat)
    (t : Track) : Option (Nat × List Query × Except Exc (Option PTrack)) :=
  match saveSearch env fuel h ⟨t.title, "track", 5⟩ with
  | none => none
  | some (h1, none) => some (h1, [⟨t.title, "track", 5⟩], .ok none)
  | some (h1, some rs) =>
    if rs.isEmpty || hasParen t.title then
      match saveSearch env fuel h1 ⟨beforeParen t.title, "track", 5⟩ with
      | none => none
      | some (h2, sNew) =>
        some (h2, [⟨t.title, "track", 5⟩, ⟨beforeParen t.title, "track", 5⟩],
          findMatch t (rs ++ sNew.getD []))
    else
      some (h1, [⟨t.title, "track", 5⟩], findMatch t rs)

/-- `_get_available_plex_tracks`: resolve each track in order, threading the
handle; an accepted candidate is appended to the resolved list, otherwise the
descriptor is appended to the missing list.  Returns the final handle and
either the partition or the uncaught exception that aborted the pass; `none`
when a `saveSearch` ran out of fuel. -/
def get_available_plex_tracks (env : Nat → Query → SearchOutcome)
    (fuel : Nat) :
    Nat → List Track → Option (Nat × Except Exc (List PTrack × List Track))
  | h, [] => some (h, .ok ([], []))
  | h, t :: ts =>
    match processTrack env fuel h t with
    | none => none
    | some (h1, _, .error e) => some (h1, .error e)
    | some (h1, _, .ok outcome) =>
      match get_available_plex_tracks env fuel h1 ts with
      | none => none
      | some (h2, .error e) => some (h2, .error e)
      | some (h2, .ok (pts, miss)) =>
        match outcome with
        | some s => some (h2, .ok (s :: pts, miss))
        | none => some (h2, .ok (pts, t :: miss))

/-- A remote call made by the reconciler; each playlist call records the
connection handle it was made with. -/
inductive Effect where
  | removeItems (h : Nat) (name : String) (items : List PTrack)
  | addItems (h : Nat) (name : String) (items : List PTrack)
  | createPlaylist (h : Nat) (name : String) (items : List PTrack)
  | editSummary (h : Nat) (name : String) (summary : String)
  | uploadPoster (h : Nat) (name : String) (url : String)
  | writeCsv (name : String) (rows : List Track)
  | deleteCsv (name : String)
deriving DecidableEq, Repr

/-- Whether an effect mutates the remote playlist catalog (as opposed to the
local missing-tracks CSV directory). -/
def Effect.isRemoteMutation : Effect → Bool
  | .removeItems _ _ _ => true
  | .addItems _ _ _ => true
  | .createPlaylist _ _ _ => true
  | .editSummary _ _ _ => true
  | .uploadPoster _ _ _ => true
  | .writeCsv _ _ => false
  | .deleteCsv _ => false

/-- Injected failures of the non-remote side effects: whether writing the
missing-tracks CSV raises, and whether deleting it raises (beyond the natural
failure when the file does not exist). -/
structure SideEnv where
  writeCsvFails : Bool
  deleteCsvFails : Bool
deriving DecidableEq, Repr

/-- Remove the entry of `name` from an association list. -/
def eraseEntry {α : Type} (l : List (String × α)) (name : String) :
    List (String × α) :=
  l.filter (fun p => p.1 ≠ name)

/-- Overwrite (or create) the entry of `name` in an association list. -/
def setEntry {α : Type} (l : List (String × α)) (name : String) (v : α) :
    List (String × α) :=
  (name, v) :: eraseEntry l name

/-- The observable state touched by `update_or_create_plex_playlist`: the
remote playlist store (name → items) and the missing-tracks CSV directory
(name → rows). -/
structure World where
  remote : List (String × List PTrack)
  csv : List (String × List Track)
deriving DecidableEq, Repr

/-- `_write_csv`: write one row of title, artist, album, url per track under
the playlist name; a raised exception leaves the directory unchanged. -/
def write_csv (fails : Bool) (csv : List (String × List Track))
    (name : String) (rows : List Track) : List (String × List Track) :=
  if fails then csv else setEntry csv name rows

/-- `_delete_csv`: unlink the file of the playlist name; it raises when the
file does not exist (or on an injected failure), leaving the directory
unchanged. -/
def delete_csv (fails : Bool) (csv : List (String × List Track))
    (name : String) : List (String × List Track) :=
  if fails || (csv.lookup name).isNone then csv else eraseEntry csv name

/-- `_update_plex_playlist`: look the playlist up by name (raises `NotFound`
when absent); when not appending, remove all current items; then add all
available tracks. -/
def update_plex_playlist (h : Nat)
    (remote : List (String × List PTrack)) (avail : List PTrack)
    (name : String) (append : Bool) :
    Except Exc (List (String × List PTrack) × List Effect) :=
  match remote.lookup name with
  | none => .error .notFound
  | some items =>
    .ok (setEntry remote name ((if append then items else []) ++ avail),
      (if append then [] else [Effect.removeItems h name items]) ++
        [Effect.addItems h name avail])

/-- Python truthiness of an optional string (`None` and `""` are falsy). -/
def strTruthy : Option String → Bool
  | none => false
  | some s => !s.isEmpty

/-- The missing-track bookkeeping at the end of
`update_or_create_plex_playlist`: when missing tracks exist and the flag is
set, write the CSV (failure logged); when none are missing and the flag is
set, delete the stale CSV (failure logged). -/
def missingBookkeeping (se : SideEnv) (writeFlag : Bool) (name : String)
    (miss : List Track) (csv : List (String × List Track)) :
    List (String × List Track) × List Effect :=
  if !miss.isEmpty && writeFlag then
    (write_csv se.writeCsvFails csv name miss, [Effect.writeCsv name miss])
  else if miss.isEmpty && writeFlag then
    (delete_csv se.deleteCsvFails csv name, [Effect.deleteCsv name])
  else (csv, [])

/-- `update_or_create_plex_playlist`: resolve all tracks (note that the
handle returned by the resolution phase is discarded — the playlist calls
below use the handle `h` the pass started with); when some tracks resolved,
update the playlist by name, falling back to creation on `NotFound`, then
optionally set description and poster (failures logged); when none resolved,
skip every playlist mutation; finally do the missing-track bookkeeping.
Returns `none` when a search ran out of fuel, `.error` when resolution was
aborted by an uncaught exception, and otherwise the new world and the trace
of remote calls. -/
def update_or_create_plex_playlist (env : Nat → Query → SearchOutcome)
    (se : SideEnv) (fuel h : Nat) (playlist : Playlist)
    (tracks : List Track) (ui : UserInputs) (world : World) :
    Option (Except Exc (World × List Effect)) :=
  match get_available_plex_tracks env fuel h tracks with
  | none => none
  | some (_, .error e) => some (.error e)
  | some (_, .ok (avail, miss)) =>
    let step1 : List (String × List PTrack) × List Effect :=
      if !avail.isEmpty then
        match update_plex_playlist h world.remote avail playlist.name
            ui.append_instead_of_sync with
        | .ok (remote1, effs) => (remote1, effs)
        | .error _ =>
          (setEntry world.remote playlist.name avail,
            [Effect.createPlaylist h playlist.name avail])
      else (world.remote, [])
    let effs2 : List Effect :=
      if !avail.isEmpty && strTruthy playlist.description &&
          ui.add_playlist_description then
        [Effect.editSummary h playlist.name (playlist.description.getD "")]
      else []
    let effs3 : List Effect :=
      if !avail.isEmpty && strTruthy playlist.poster &&
          ui.add_playlist_poster then
        [Effect.uploadPoster h playlist.name (playlist.poster.getD "")]
      else []
    let step4 : List (String × List Track) × List Effect :=
      missingBookkeeping se ui.write_missing_as_csv playlist.name miss
        world.csv
    some (.ok (⟨step1.1, step4.1⟩, step1.2 ++ effs2 ++ effs3 ++ step4.2))

/-- The integer comparison used by the engine agrees with the rational
comparison `0.9 ≤ quick_ratio`. -/
theorem atLeastPoint9_iff (a b : String) :
    atLeastPoint9 a b = true ↔ (9 : ℚ) / 10 ≤ similarity a b := by
  unfold atLeastPoint9 similarity
  rw [decide_eq_true_iff]
  by_cases h : a.length + b.length = 0
  · rw [if_pos h, h]
    norm_num
  · rw [if_neg h]
    have hY : (0 : ℚ) < ((a.length + b.length : Nat) : ℚ) := by
      exact_mod_cast Nat.pos_of_ne_zero h
    rw [div_le_div_iff₀ (by norm_num) hY]
    push_cast
    constructor
    · intro hle
      have hq : ((9 * (a.length + b.length) : Nat) : ℚ) ≤
          ((20 * charMatches a.data b.data : Nat) : ℚ) := Nat.cast_le.mpr hle
      push_cast at hq
      linarith
    · intro hle
      have hq : ((9 * (a.length + b.length) : Nat) : ℚ) ≤
          ((20 * charMatches a.data b.data : Nat) : ℚ) := by
        push_cast
        linarith
      exact_mod_cast hq

/-- Looking up a name after overwriting it yields the new value. -/
theorem lookup_setEntry_self {α : Type} (l : List (String × α)) (n : String)
    (v : α) : (setEntry l n v).lookup n = some v := by
  simp [setEntry, List.lookup]

/-- Looking up a name after erasing it yields nothing. -/
theorem lookup_eraseEntry_self {α : Type} (l : List (String × α))
    (n : String) : (eraseEntry l n).lookup n = none := by
  induction l with
  | nil => rfl
  | cons p rest ih =>
    by_cases hp : p.1 = n
    · simpa [eraseEntry, List.filter_cons, hp] using ih
    · simp only [eraseEntry, List.filter_cons] at ih ⊢
      have hcond : decide (p.1 ≠ n) = true := by simp [hp]
      rw [hcond, if_pos rfl]
      obtain ⟨k, v⟩ := p
      rw [List.lookup_cons, beq_false_of_ne (Ne.symm hp)]
      exact ih

/-- With enough fuel (some reachable handle answers the query without a
connectivity error), `saveSearch` returns. -/
theorem saveSearch_terminates (env : Nat → Query → SearchOutcome)
    (q : Query) :
    ∀ fuel h, (∃ k, k < fuel ∧ env (h + k) q ≠ .connError) →
      (saveSearch env fuel h q).isSome = true := by
  intro fuel
  induction fuel with
  | zero =>
    intro h hex
    obtain ⟨k, hk, _⟩ := hex
    omega
  | succ n ih =>
    intro h hex
    obtain ⟨k, hk, hne⟩ := hex
    unfold saveSearch
    cases he : env h q with
    | ok rs => simp
    | badRequest => simp
    | connError =>
      apply ih
      cases k with
      | zero =>
        rw [Nat.add_zero] at hne
        exact absurd he hne
      | succ j =>
        refine ⟨j, by omega, ?_⟩
        have harith : createPlexServer h + j = h + (j + 1) := by
          unfold createPlexServer
          omega
        rw [harith]
        exact hne

/-- C1: whenever `_get_available_plex_tracks` finishes a pass, every input
descriptor ends up in exactly one of the two outputs: the resolved and
missing lists together have exactly as many entries as the input (each
accepted candidate contributing exactly one resolved entry), and the missing
list is a subsequence of the input, so no descriptor occurrence is counted
twice. -/
theorem C1_partition (env : Nat → Query → SearchOutcome) (fuel : Nat) :
    ∀ (ts : List Track) (h h' : Nat) (pts : List PTrack)
      (miss : List Track),
      get_available_plex_tracks env fuel h ts = some (h', .ok (pts, miss)) →
      pts.length + miss.length = ts.length ∧ miss.Sublist ts := by
  intro ts
  induction ts with
  | nil =>
    intro h h' pts miss hres
    simp only [get_available_plex_tracks, Option.some.injEq, Prod.mk.injEq,
      Except.ok.injEq] at hres
    obtain ⟨-, h2, h3⟩ := hres
    subst h2
    subst h3
    simp
  | cons t ts ih =>
    intro h h' pts miss hres
    simp only [get_available_plex_tracks] at hres
    cases hp : processTrack env fuel h t with
    | none => rw [hp] at hres; exact absurd hres (by simp)
    | some v =>
      obtain ⟨h1, qs, out⟩ := v
      cases out with
      | error e => rw [hp] at hres; simp at hres
      | ok outcome =>
        rw [hp] at hres
        dsimp only at hres
        cases hrec : get_available_plex_tracks env fuel h1 ts with
        | none => rw [hrec] at hres; simp at hres
        | some w =>
          obtain ⟨h2, res2⟩ := w
          cases res2 with
          | error e => rw [hrec] at hres; simp at hres
          | ok pr =>
            obtain ⟨pts0, miss0⟩ := pr
            rw [hrec] at hres
            have hih := ih h1 h2 pts0 miss0 hrec
            cases outcome with
            | some s =>
              simp at hres
              obtain ⟨-, hpts, hmiss⟩ := hres
              subst hpts
              subst hmiss
              refine ⟨?_, hih.2.cons t⟩
              simp only [List.length_cons]
              omega
            | none =>
              simp at hres
              obtain ⟨-, hpts, hmiss⟩ := hres
              subst hpts
              subst hmiss
              refine ⟨?_, hih.2.cons₂ t⟩
              simp only [List.length_cons]
              omega

/-- C1 witness: a concrete two-track pass (one track resolves, one does not)
satisfies the partition equation. -/
theorem C1_partition_witness :
    ([PTrack.mk (.ok "a") (.ok "x")].length +
        [Track.mk "s2" "zz" "ww" "u2"].length =
      [Track.mk "s1" "a" "b" "u1", Track.mk "s2" "zz" "ww" "u2"].length) ∧
    [Track.mk "s2" "zz" "ww" "u2"].Sublist
      [Track.mk "s1" "a" "b" "u1", Track.mk "s2" "zz" "ww" "u2"] :=
  C1_partition
    (fun _ q => if q.searchString = "s1" then .ok [⟨.ok "a", .ok "x"⟩]
      else .ok [])
    3 [⟨"s1", "a", "b", "u1"⟩, ⟨"s2", "zz", "ww", "u2"⟩] 0 0
    [⟨.ok "a", .ok "x"⟩] [⟨"s2", "zz", "ww", "u2"⟩] (by decide)

/-- C2: for a candidate whose artist metadata reads successfully, an artist
similarity of at least 0.9 (on lower-cased strings) accepts the candidate
regardless of its album metadata; below that threshold, and with readable
album metadata, the candidate is accepted exactly when the album similarity
is at least 0.9; with both below the threshold it is rejected; the candidate
scan returns the first accepted candidate and otherwise proceeds to the next
candidate in the returned order. -/
theorem C2_threshold (t : Track) (s : PTrack) (rest : List PTrack)
    (a : String) (ha : s.artistName = .ok a) :
    ((9 : ℚ) / 10 ≤ similarity (lowerStr a) (lowerStr t.artist) →
      evalCandidate t s = .accepted) ∧
    (¬ ((9 : ℚ) / 10 ≤ similarity (lowerStr a) (lowerStr t.artist)) →
      ∀ b, s.albumName = .ok b →
        ((9 : ℚ) / 10 ≤ similarity (lowerStr b) (lowerStr t.album) →
          evalCandidate t s = .accepted) ∧
        (¬ ((9 : ℚ) / 10 ≤ similarity (lowerStr b) (lowerStr t.album)) →
          evalCandidate t s = .rejected)) ∧
    (evalCandidate t s = .accepted →
      findMatch t (s :: rest) = .ok (some s)) ∧
    (evalCandidate t s = .rejected →
      findMatch t (s :: rest) = findMatch t rest) := by
  refine ⟨?_, ?_, ?_, ?_⟩
  · intro hart
    rw [← atLeastPoint9_iff] at hart
    simp [evalCandidate, ha, hart]
  · intro hart b hb
    rw [← atLeastPoint9_iff] at hart
    rw [Bool.not_eq_true] at hart
    constructor
    · intro halb
      rw [← atLeastPoint9_iff] at halb
      simp [evalCandidate, ha, hart, hb, halb]
    · intro halb
      rw [← atLeastPoint9_iff] at halb
      rw [Bool.not_eq_true] at halb
      simp [evalCandidate, ha, hart, hb, halb]
  · intro hacc
    simp [findMatch, hacc]
  · intro hrej
    simp [findMatch, hrej]

/-- C2 witness: a concrete candidate with identical artist strings is
accepted and returned as the match. -/
theorem C2_threshold_witness :
    evalCandidate ⟨"t", "Abba", "al", "u"⟩ ⟨.ok "ABBA", .err .indexError⟩ =
      .accepted ∧
    findMatch ⟨"t", "Abba", "al", "u"⟩ [⟨.ok "ABBA", .err .indexError⟩] =
      .ok (some ⟨.ok "ABBA", .err .indexError⟩) := by
  have hc := C2_threshold ⟨"t", "Abba", "al", "u"⟩
    ⟨.ok "ABBA", .err .indexError⟩ [] "ABBA" rfl
  have hacc := hc.1 ((atLeastPoint9_iff _ _).mp (by decide))
  exact ⟨hacc, hc.2.2.1 hacc⟩

/-- C3 counterexample: a title containing `(` whose first query fails
permanently (bad request).  The claim says a permanently-failed first query
counts as zero candidates, so a second query should be issued; the code
issues no second query (the trace holds exactly one query) because the
retry condition requires the first result to differ from `None`. -/
theorem C3_counterexample :
    hasParen "Song (live)" = true ∧
    processTrack
        (fun _ q => if q.searchString = "Song (live)" then .badRequest
          else .ok [])
        3 0 ⟨"Song (live)", "a", "b", "u"⟩ =
      some (0, [⟨"Song (live)", "track", 5⟩], .ok none) := by
  constructor
  · decide
  · decide

/-- C3 amended: the second relaxed query (search string = the prefix of the
title before the first `(`, same limit) is issued exactly when the first
query did not fail permanently and either yielded zero candidates or the
title contains a `(`; when the first query failed permanently no second
query is issued; for a title with no `(` and a non-empty first result only
one query is issued; the relaxed query's results (`[]` when it failed
permanently) are appended after the first query's results. -/
theorem C3_retry_amended (env : Nat → Query → SearchOutcome) (fuel h : Nat)
    (t : Track) (h1 : Nat) (s0 : Option (List PTrack))
    (hq : saveSearch env fuel h ⟨t.title, "track", 5⟩ = some (h1, s0)) :
    (s0 = none →
      processTrack env fuel h t =
        some (h1, [⟨t.title, "track", 5⟩], .ok none)) ∧
    (∀ rs, s0 = some rs → (rs = [] ∨ hasParen t.title = true) →
      ∀ h2 s1,
        saveSearch env fuel h1 ⟨beforeParen t.title, "track", 5⟩ =
          some (h2, s1) →
        processTrack env fuel h t =
          some (h2,
            [⟨t.title, "track", 5⟩, ⟨beforeParen t.title, "track", 5⟩],
            findMatch t (rs ++ s1.getD []))) ∧
    (∀ rs, s0 = some rs → rs ≠ [] → hasParen t.title = false →
      processTrack env fuel h t =
        some (h1, [⟨t.title, "track", 5⟩], findMatch t rs)) := by
  refine ⟨?_, ?_, ?_⟩
  · intro h0
    subst h0
    simp [processTrack, hq]
  · intro rs hs0 hcond h2 s1 hq2
    subst hs0
    have hc : (rs.isEmpty || hasParen t.title) = true := by
      cases hcond with
      | inl hrs => subst hrs; simp
      | inr hpar => simp [hpar]
    simp [processTrack, hq, hc, hq2]
  · intro rs hs0 hne hpar
    subst hs0
    have hc : (rs.isEmpty || hasParen t.title) = false := by
      cases rs with
      | nil => exact absurd rfl hne
      | cons x xs => simp [hpar]
    simp [processTrack, hq, hc]

/-- C3 witness: a parenthesis-free title with a non-empty first result issues
exactly one query. -/
theorem C3_retry_amended_witness :
    processTrack (fun _ _ => .ok [⟨.ok "a", .ok "x"⟩]) 2 0
        ⟨"t", "a", "b", "u"⟩ =
      some (0, [⟨"t", "track", 5⟩],
        findMatch ⟨"t", "a", "b", "u"⟩ [⟨.ok "a", .ok "x"⟩]) :=
  (C3_retry_amended (fun _ _ => .ok [⟨.ok "a", .ok "x"⟩]) 2 0
      ⟨"t", "a", "b", "u"⟩ 0 (some [⟨.ok "a", .ok "x"⟩])
      (by decide)).2.2 [⟨.ok "a", .ok "x"⟩] rfl (by decide) (by decide)

/-- C10: for a title beginning with `(` (so the prefix before the first `(`
is empty) whose first query did not fail permanently, the relaxed retry
query is still issued and its search string is the empty string. -/
theorem C10_empty_prefix (env : Nat → Query → SearchOutcome) (fuel h : Nat)
    (t : Track) (hstart : t.title.data.head? = some '(')
    (h1 : Nat) (rs : List PTrack)
    (hq : saveSearch env fuel h ⟨t.title, "track", 5⟩ = some (h1, some rs))
    (h' : Nat) (qs : List Query) (r : Except Exc (Option PTrack))
    (hp : processTrack env fuel h t = some (h', qs, r)) :
    qs = [⟨t.title, "track", 5⟩, ⟨"", "track", 5⟩] := by
  obtain ⟨c, cs, hd⟩ : ∃ c cs, t.title.data = c :: cs := by
    cases hdata : t.title.data with
    | nil => rw [hdata] at hstart; simp at hstart
    | cons c cs => exact ⟨c, cs, rfl⟩
  rw [hd] at hstart
  simp only [List.head?_cons, Option.some.injEq] at hstart
  subst hstart
  have hparen : hasParen t.title = true := by
    simp [hasParen, hd]
  have hbp : beforeParen t.title = "" := by
    simp only [beforeParen, hd, List.takeWhile]
    norm_num
  have hc : (rs.isEmpty || hasParen t.title) = true := by simp [hparen]
  simp only [processTrack, hq, hc] at hp
  cases hq2 : saveSearch env fuel h1 ⟨beforeParen t.title, "track", 5⟩ with
  | none => rw [hq2] at hp; simp at hp
  | some w =>
    obtain ⟨h2, s1⟩ := w
    rw [hq2] at hp
    simp only [Option.some.injEq, Prod.mk.injEq] at hp
    obtain ⟨-, hqs, -⟩ := hp
    rw [hbp]

/-- C10 witness: a concrete track with a title starting with `(` issues the
relaxed query with the empty search string. -/
theorem C10_empty_prefix_witness :
    ([⟨"(Live) Song", "track", 5⟩, ⟨"", "track", 5⟩] : List Query) =
      [⟨"(Live) Song", "track", 5⟩, ⟨"", "track", 5⟩] :=
  C10_empty_prefix (fun _ _ => .ok []) 2 0 ⟨"(Live) Song", "a", "b", "u"⟩
    (by decide) 0 [] (by decide) 0
    [⟨"(Live) Song", "track", 5⟩, ⟨"", "track", 5⟩] (.ok none) (by decide)

/-- C7 counterexample: a candidate whose artist metadata read raises an
exception other than `IndexError` is not skipped — the exception propagates
and aborts the resolution of the whole pass, contradicting the claim that no
metadata-access failure of any kind aborts resolution. -/
theorem C7_counterexample :
    get_available_plex_tracks
        (fun _ _ => .ok [⟨.err .otherError, .ok "x"⟩]) 2 0
        [⟨"t", "a", "b", "u"⟩] =
      some (0, .error .otherError) := by
  decide

/-- C7 amended: an `IndexError` raised while reading a candidate's artist or
album metadata causes that candidate to be skipped and iteration to continue
with the next candidate; an exception of any other kind propagates and
aborts the resolution. -/
theorem C7_amended (t : Track) (s : PTrack) (rest : List PTrack) :
    (s.artistName = .err .indexError →
      findMatch t (s :: rest) = findMatch t rest) ∧
    (∀ a, s.artistName = .ok a →
      ¬ ((9 : ℚ) / 10 ≤ similarity (lowerStr a) (lowerStr t.artist)) →
      s.albumName = .err .indexError →
      findMatch t (s :: rest) = findMatch t rest) ∧
    (∀ e, s.artistName = .err e → e ≠ .indexError →
      findMatch t (s :: rest) = .error e) ∧
    (∀ a e, s.artistName = .ok a →
      ¬ ((9 : ℚ) / 10 ≤ similarity (lowerStr a) (lowerStr t.artist)) →
      s.albumName = .err e → e ≠ .indexError →
      findMatch t (s :: rest) = .error e) := by
  refine ⟨?_, ?_, ?_, ?_⟩
  · intro ha
    simp [findMatch, evalCandidate, ha]
  · intro a ha hart hb
    rw [← atLeastPoint9_iff, Bool.not_eq_true] at hart
    simp [findMatch, evalCandidate, ha, hart, hb]
  · intro e ha hne
    cases e with
    | indexError => exact absurd rfl hne
    | badRequest => simp [findMatch, evalCandidate, ha]
    | notFound => simp [findMatch, evalCandidate, ha]
    | otherError => simp [findMatch, evalCandidate, ha]
  · intro a e ha hart hb hne
    rw [← atLeastPoint9_iff, Bool.not_eq_true] at hart
    cases e with
    | indexError => exact absurd rfl hne
    | badRequest => simp [findMatch, evalCandidate, ha, hart, hb]
    | notFound => simp [findMatch, evalCandidate, ha, hart, hb]
    | otherError => simp [findMatch, evalCandidate, ha, hart, hb]

/-- C7 witness: a concrete candidate raising `IndexError` on the artist read
is skipped and the scan continues (here with an empty remainder). -/
theorem C7_amended_witness :
    findMatch ⟨"t", "a", "b", "u"⟩ [⟨.err .indexError, .ok "x"⟩] =
      findMatch ⟨"t", "a", "b", "u"⟩ [] :=
  (C7_amended ⟨"t", "a", "b", "u"⟩ ⟨.err .indexError, .ok "x"⟩ []).1 rfl

/-- C8: `saveSearch` never raises: on a bad-request failure it returns the
unchanged handle with null results and no reconnection; on a successful
search it returns the unchanged handle with the results; on any other
exception it reacquires a fresh connection and retries the identical query
(one retry per failure, recursively); and with enough fuel (some reachable
handle answers without a connectivity error) it returns a result. -/
theorem C8_saveSearch (env : Nat → Query → SearchOutcome) (fuel h : Nat)
    (q : Query) :
    (env h q = .badRequest →
      saveSearch env (fuel + 1) h q = some (h, none)) ∧
    (∀ rs, env h q = .ok rs →
      saveSearch env (fuel + 1) h q = some (h, some rs)) ∧
    (env h q = .connError →
      saveSearch env (fuel + 1) h q =
        saveSearch env fuel (createPlexServer h) q) ∧
    ((∃ k, k < fuel ∧ env (h + k) q ≠ .connError) →
      (saveSearch env fuel h q).isSome = true) := by
  refine ⟨?_, ?_, ?_, saveSearch_terminates env q fuel h⟩
  · intro he
    unfold saveSearch
    rw [he]
  · intro rs he
    unfold saveSearch
    rw [he]
  · intro he
    conv_lhs => rw [saveSearch]
    rw [he]

/-- C8 witness: a query that fails with a bad request returns the unchanged
handle and null results. -/
theorem C8_saveSearch_witness :
    saveSearch (fun _ _ => .badRequest) 4 0 ⟨"q", "track", 5⟩ =
      some (0, none) :=
  (C8_saveSearch (fun _ _ => .badRequest) 3 0 ⟨"q", "track", 5⟩).1 rfl

/-- The missing-track bookkeeping only ever touches the CSV directory, never
the remote catalog. -/
theorem missingBookkeeping_not_remote (se : SideEnv) (wf : Bool) (n : String)
    (miss : List Track) (csv : List (String × List Track)) :
    ((missingBookkeeping se wf n miss csv).2).all
      (fun e => !e.isRemoteMutation) = true := by
  unfold missingBookkeeping
  by_cases h1 : (!miss.isEmpty && wf) = true
  · simp [h1, Effect.isRemoteMutation]
  · by_cases h2 : (miss.isEmpty && wf) = true
    · simp [h1, h2, Effect.isRemoteMutation]
    · simp [h1, h2]

/-- C5: when resolution yields an empty resolved list, no remote playlist
mutation occurs: the remote store is unchanged and the effect trace contains
no removeItems, addItems, createPlaylist, edit or uploadPoster call. -/
theorem C5_empty_skip (env : Nat → Query → SearchOutcome) (se : SideEnv)
    (fuel h : Nat) (playlist : Playlist) (tracks : List Track)
    (ui : UserInputs) (world : World) (h' : Nat) (miss : List Track)
    (w' : World) (effs : List Effect)
    (hres : get_available_plex_tracks env fuel h tracks =
      some (h', .ok ([], miss)))
    (hupd : update_or_create_plex_playlist env se fuel h playlist tracks ui
        world = some (.ok (w', effs))) :
    w'.remote = world.remote ∧
    effs.all (fun e => !e.isRemoteMutation) = true := by
  simp only [update_or_create_plex_playlist, hres] at hupd
  simp at hupd
  obtain ⟨hw', heffs⟩ := hupd
  subst heffs
  refine ⟨?_, missingBookkeeping_not_remote se ui.write_missing_as_csv
    playlist.name miss world.csv⟩
  rw [← hw']

/-- C5 witness: a playlist whose single track does not resolve leaves the
remote store untouched and makes no remote playlist call. -/
theorem C5_empty_skip_witness :
    (World.mk [("Q", [⟨.ok "zz", .ok "zz"⟩])] []).remote =
      (World.mk [("Q", [⟨.ok "zz", .ok "zz"⟩])] []).remote ∧
    ([] : List Effect).all (fun e => !e.isRemoteMutation) = true :=
  C5_empty_skip (fun _ _ => .ok []) ⟨false, false⟩ 2 0 ⟨"Empty", none, none⟩
    [⟨"t", "a", "b", "u"⟩] ⟨false, false, false, false⟩
    ⟨[("Q", [⟨.ok "zz", .ok "zz"⟩])], []⟩ 0 [⟨"t", "a", "b", "u"⟩]
    ⟨[("Q", [⟨.ok "zz", .ok "zz"⟩])], []⟩ [] (by decide) (by decide)

/-- C4: when resolution produced a non-empty resolved list and a remote
playlist of the given name exists, the sync policy leaves the playlist
holding exactly the resolved items (clear then add), and the append policy
leaves it holding the previous items followed by the resolved items. -/
theorem C4_append_vs_sync (env : Nat → Query → SearchOutcome) (se : SideEnv)
    (fuel h : Nat) (playlist : Playlist) (tracks : List Track)
    (ui : UserInputs) (world : World) (h' : Nat) (avail : List PTrack)
    (miss : List Track) (X : List PTrack) (w' : World) (effs : List Effect)
    (hres : get_available_plex_tracks env fuel h tracks =
      some (h', .ok (avail, miss)))
    (hne : avail ≠ [])
    (hX : world.remote.lookup playlist.name = some X)
    (hupd : update_or_create_plex_playlist env se fuel h playlist tracks ui
        world = some (.ok (w', effs))) :
    (ui.append_instead_of_sync = false →
      w'.remote.lookup playlist.name = some avail) ∧
    (ui.append_instead_of_sync = true →
      w'.remote.lookup playlist.name = some (X ++ avail)) := by
  have hne' : avail.isEmpty = false := by
    cases avail with
    | nil => exact absurd rfl hne
    | cons x xs => rfl
  simp only [update_or_create_plex_playlist, hres, update_plex_playlist, hX,
    hne'] at hupd
  simp at hupd
  obtain ⟨hw', -⟩ := hupd
  constructor
  · intro happ
    rw [← hw']
    simp only [happ]
    simp [lookup_setEntry_self]
  · intro happ
    rw [← hw']
    simp only [happ]
    simp [lookup_setEntry_self]

/-- C4 witness: a concrete sync-policy pass replaces the existing item with
the resolved one. -/
theorem C4_append_vs_sync_witness :
    (false = false →
      (World.mk [("P", [⟨.ok "a", .ok "x"⟩])]
          []).remote.lookup "P" = some [⟨.ok "a", .ok "x"⟩]) ∧
    (false = true →
      (World.mk [("P", [⟨.ok "a", .ok "x"⟩])]
          []).remote.lookup "P" =
        some ([⟨.ok "old", .ok "old"⟩] ++ [⟨.ok "a", .ok "x"⟩])) :=
  C4_append_vs_sync (fun _ _ => .ok [⟨.ok "a", .ok "x"⟩]) ⟨false, false⟩
    2 0 ⟨"P", none, none⟩ [⟨"t", "a", "b", "u"⟩]
    ⟨false, false, false, false⟩ ⟨[("P", [⟨.ok "old", .ok "old"⟩])], []⟩
    0 [⟨.ok "a", .ok "x"⟩] [] [⟨.ok "old", .ok "old"⟩]
    ⟨[("P", [⟨.ok "a", .ok "x"⟩])], []⟩
    [.removeItems 0 "P" [⟨.ok "old", .ok "old"⟩],
      .addItems 0 "P" [⟨.ok "a", .ok "x"⟩]]
    (by decide) (by decide) (by decide) (by decide)

/-- C6: with the write-missing flag enabled, a non-empty missing list makes
the pass attempt a record write keyed by the playlist name containing
exactly the missing tracks (one row each, the record holding title, artist,
album and url), an empty missing list makes it attempt the deletion of the
stale record, and either attempt failing leaves the directory unchanged
without aborting the pass (the pass still returns its result). -/
theorem C6_missing_record (env : Nat → Query → SearchOutcome) (se : SideEnv)
    (fuel h : Nat) (playlist : Playlist) (tracks : List Track)
    (ui : UserInputs) (world : World) (h' : Nat) (avail : List PTrack)
    (miss : List Track) (w' : World) (effs : List Effect)
    (hwf : ui.write_missing_as_csv = true)
    (hres : get_available_plex_tracks env fuel h tracks =
      some (h', .ok (avail, miss)))
    (hupd : update_or_create_plex_playlist env se fuel h playlist tracks ui
        world = some (.ok (w', effs))) :
    (miss ≠ [] →
      Effect.writeCsv playlist.name miss ∈ effs ∧
      (se.writeCsvFails = false →
        w'.csv.lookup playlist.name = some miss) ∧
      (se.writeCsvFails = true → w'.csv = world.csv)) ∧
    (miss = [] →
      Effect.deleteCsv playlist.name ∈ effs ∧
      (se.deleteCsvFails = false →
        w'.csv.lookup playlist.name = none) ∧
      (se.deleteCsvFails = true → w'.csv = world.csv)) := by
  simp only [update_or_create_plex_playlist, hres] at hupd
  simp at hupd
  obtain ⟨hw', heffs⟩ := hupd
  constructor
  · intro hm
    have hm' : miss.isEmpty = false := by
      cases miss with
      | nil => exact absurd rfl hm
      | cons x xs => rfl
    simp only [missingBookkeeping, hm', hwf] at hw' heffs
    simp at hw' heffs
    refine ⟨?_, ?_, ?_⟩
    · subst heffs
      exact List.mem_append_right _ (by simp)
    · intro hfail
      rw [← hw']
      simp [write_csv, hfail, lookup_setEntry_self]
    · intro hfail
      rw [← hw']
      simp [write_csv, hfail]
  · intro hm
    subst hm
    simp only [missingBookkeeping, hwf] at hw' heffs
    simp at hw' heffs
    refine ⟨?_, ?_, ?_⟩
    · subst heffs
      exact List.mem_append_right _ (by simp)
    · intro hfail
      rw [← hw']
      simp only [delete_csv, hfail, Bool.false_or]
      by_cases habs : (world.csv.lookup playlist.name).isNone = true
      · rw [if_pos habs]
        exact Option.isNone_iff_eq_none.mp habs
      · rw [if_neg habs]
        exact lookup_eraseEntry_self world.csv playlist.name
    · intro hfail
      rw [← hw']
      simp [delete_csv, hfail]

/-- C6 witness: a concrete pass whose only track is missing writes the
missing-tracks record for the playlist name. -/
theorem C6_missing_record_witness :
    ([⟨"t", "a", "b", "u"⟩] ≠ ([] : List Track) →
      Effect.writeCsv "P" [⟨"t", "a", "b", "u"⟩] ∈
        ([Effect.writeCsv "P" [⟨"t", "a", "b", "u"⟩]] : List Effect) ∧
      (false = false →
        (World.mk [] [("P", [⟨"t", "a", "b", "u"⟩])]).csv.lookup "P" =
          some [⟨"t", "a", "b", "u"⟩]) ∧
      (false = true →
        (World.mk [] [("P", [⟨"t", "a", "b", "u"⟩])]).csv =
          (World.mk [] []).csv)) ∧
    ([⟨"t", "a", "b", "u"⟩] = ([] : List Track) →
      Effect.deleteCsv "P" ∈
        ([Effect.writeCsv "P" [⟨"t", "a", "b", "u"⟩]] : List Effect) ∧
      (false = false →
        (World.mk [] [("P", [⟨"t", "a", "b", "u"⟩])]).csv.lookup "P" =
          none) ∧
      (false = true →
        (World.mk [] [("P", [⟨"t", "a", "b", "u"⟩])]).csv =
          (World.mk [] []).csv)) :=
  C6_missing_record (fun _ _ => .ok []) ⟨false, false⟩ 2 0 ⟨"P", none, none⟩
    [⟨"t", "a", "b", "u"⟩] ⟨false, true, false, false⟩ ⟨[], []⟩ 0 []
    [⟨"t", "a", "b", "u"⟩] ⟨[], [("P", [⟨"t", "a", "b", "u"⟩])]⟩
    [Effect.writeCsv "P" [⟨"t", "a", "b", "u"⟩]] rfl (by decide) (by decide)

/-- C9: the claim says the playlist calls made after resolution use the
possibly-reacquired handle returned by the last search; the code discards
that handle (`_get_available_plex_tracks` returns only the track lists), so
the calls use the handle the pass started with.  At this input the
resolution phase ends on handle 1 after a reconnection, yet the
removeItems/addItems calls carry handle 0. -/
theorem C9_stale_handle :
    get_available_plex_tracks
        (fun hh _ => if hh = 0 then .connError
          else .ok [⟨.ok "a", .ok "x"⟩]) 3 0 [⟨"t", "a", "b", "u"⟩] =
      some (1, .ok ([⟨.ok "a", .ok "x"⟩], [])) ∧
    update_or_create_plex_playlist
        (fun hh _ => if hh = 0 then .connError
          else .ok [⟨.ok "a", .ok "x"⟩])
        ⟨false, false⟩ 3 0 ⟨"P", none, none⟩ [⟨"t", "a", "b", "u"⟩]
        ⟨false, false, false, false⟩ ⟨[("P", [])], []⟩ =
      some (.ok (⟨[("P", [⟨.ok "a", .ok "x"⟩])], []⟩,
        [.removeItems 0 "P" [], .addItems 0 "P" [⟨.ok "a", .ok "x"⟩]])) := by
  exact ⟨by decide, by decide⟩

end PlexSync
